import Mathlib

/-!
# Verification of crossbeam's rendezvous channel and epoch tagged-pointer core

This file shallowly embeds the core of the crossbeam repository:

* `crossbeam-epoch/src/atomic.rs` — the atomic tagged-pointer abstraction
  (`low_bits`, `compose_tag`, `decompose_tag`, `Shared::with_tag`, `Shared::tag`,
  `Shared::as_raw`, `Shared::is_null`, `Atomic::compare_and_set`,
  `Atomic::fetch_and/or/xor`, `strongest_failure_ordering`);
* `crossbeam-epoch/src/deferred.rs` — the inline/boxed one-shot closure slot;
* `crossbeam-channel/src/flavors/zero.rs` and the legacy `src/flavors/zero.rs` —
  the zero-capacity (rendezvous) channel: packets, tokens, registries, `try_send`,
  `close`.

Machine words (`usize`) are embedded as `Nat` together with an explicit 64-bit
mask where Rust's `!` (bitwise complement on `usize`) matters.  Alignments are
powers of two, as Rust guarantees for `mem::align_of`, so theorems about tag
arithmetic take the alignment in the form `2 ^ k` with `k ≤ 64`.
-/

namespace Crossbeam

/-! ## Machine-word model -/

/-- Bit width of `usize` (the 64-bit platforms crossbeam targets). -/
def wordBits : Nat := 64

/-- All-ones machine word, `usize::MAX`. -/
def wordMask : Nat := 2 ^ wordBits - 1

/-- Bitwise complement on a machine word: Rust's `!x` for `x : usize`. -/
def wnot (x : Nat) : Nat := wordMask ^^^ x

/-- `usize::trailing_zeros`, by convention `64` on input `0`. -/
def trailingZeros (n : Nat) : Nat :=
  if h : n = 0 then 64
  else if n % 2 = 1 then 0
  else trailingZeros (n / 2) + 1
  termination_by n
  decreasing_by exact Nat.div_lt_self (Nat.pos_of_ne_zero h) (by decide)

/-! ## Tag arithmetic (`atomic.rs`, lines 147–173)

`low_bits::<H>()` is `(1 << H::ALIGN.trailing_zeros()) - 1`; `compose_tag`
and `decompose_tag` splice and split a tagged word. -/

/-- `fn low_bits<H>() -> usize { (1 << H::ALIGN.trailing_zeros()) - 1 }` -/
def low_bits (align : Nat) : Nat := (1 <<< trailingZeros align) - 1

/-- `fn compose_tag<H>(data, tag) -> usize { (data & !low_bits()) | (tag & low_bits()) }` -/
def compose_tag (align data tag : Nat) : Nat :=
  (data &&& wnot (low_bits align)) ||| (tag &&& low_bits align)

/-- The raw part of `fn decompose_tag<H>(data) -> (usize, usize)`: `data & !low_bits()`. -/
def decompose_raw (align data : Nat) : Nat := data &&& wnot (low_bits align)

/-- The tag part of `fn decompose_tag<H>(data) -> (usize, usize)`: `data & low_bits()`. -/
def decompose_tag (align data : Nat) : Nat := data &&& low_bits align

/-! ### `Shared` pointer operations (`atomic.rs`, lines 948–1180)

A `Shared<'g, H>` is just its tagged word `data : usize`; its methods are
wrappers around the tag arithmetic above. -/

/-- `Shared::null()` — `data = 0`. -/
def Shared.nullData : Nat := 0

/-- `Shared::tag(&self)` — `decompose_tag::<H>(self.data).1`. -/
def Shared.tag (align data : Nat) : Nat := decompose_tag align data

/-- `Shared::as_raw(&self)` — `decompose_tag::<H>(self.data).0`. -/
def Shared.as_raw (align data : Nat) : Nat := decompose_raw align data

/-- `Shared::with_tag(&self, tag)` — `Shared::from_usize(compose_tag::<H>(self.data, tag))`. -/
def Shared.with_tag (align data tag : Nat) : Nat := compose_tag align data tag

/-- `Shared::is_null(&self)` — raw part equals zero. -/
def Shared.is_null (align data : Nat) : Bool := decompose_raw align data == 0

/-! ## Memory orderings (`atomic.rs`, lines 65–133) -/

/-- `std::sync::atomic::Ordering`. -/
inductive MemOrd where
  | relaxed
  | release
  | acquire
  | acqRel
  | seqCst
deriving DecidableEq

/-- `fn strongest_failure_ordering(ord: Ordering) -> Ordering` —
given the success ordering of a compare-exchange, the strongest appropriate
failure ordering. -/
def strongest_failure_ordering : MemOrd → MemOrd
  | .relaxed => .relaxed
  | .release => .relaxed
  | .acquire => .acquire
  | .acqRel => .acquire
  | _ => .seqCst

/-- `CompareAndSetOrdering::success` for a single `Ordering`: the ordering itself. -/
def MemOrd.success (o : MemOrd) : MemOrd := o

/-- `CompareAndSetOrdering::failure` for a single `Ordering`:
`strongest_failure_ordering(*self)`. -/
def MemOrd.failure (o : MemOrd) : MemOrd := strongest_failure_ordering o

/-- Rust's strength lattice on memory orderings: `Relaxed` is weakest,
`SeqCst` strongest, `Acquire` and `Release` incomparable, both below `AcqRel`. -/
def MemOrd.weakerOrEqual : MemOrd → MemOrd → Bool
  | .relaxed, _ => true
  | .acquire, .acquire | .acquire, .acqRel | .acquire, .seqCst => true
  | .release, .release | .release, .acqRel | .release, .seqCst => true
  | .acqRel, .acqRel | .acqRel, .seqCst => true
  | .seqCst, .seqCst => true
  | _, _ => false

/-! ## Atomic operations (`atomic.rs`, lines 377–543)

The atomic's state is its stored tagged word.  Each operation returns the new
stored word together with the operation's return value, mirroring the Rust
signatures (`Shared` results are tagged words). -/

/-- `AtomicUsize::compare_exchange(current, new, success, failure)` on a stored
word: on success, the word becomes `new` and `Ok(previous)` is returned; on
failure, the word is unchanged and `Err(actual)` is returned. -/
def AtomicUsize.compare_exchange (stored current new : Nat) :
    Nat × Except Nat Nat :=
  if stored = current then (new, .ok stored) else (stored, .error stored)

/-- `CompareAndSetError { current, new }` — the error payload of a failed
`compare_and_set`. `current` is the word found in the atomic; `new` is the
pointer the caller supplied, returned intact. -/
structure CompareAndSetError where
  current : Nat
  new : Nat
deriving DecidableEq

/-- `Atomic::compare_and_set(current, new, ord, guard)`:
let `new = new.into_usize()`; run `compare_exchange`; map success to
`Shared::from_usize(new)` and failure to
`CompareAndSetError { current: Shared::from_usize(actual), new: P::from_usize(new) }`.
Returns the new stored word alongside the `Result`. -/
def Atomic.compare_and_set (stored current new : Nat) :
    Nat × Except CompareAndSetError Nat :=
  match AtomicUsize.compare_exchange stored current new with
  | (stored', .ok _) => (stored', .ok new)
  | (stored', .error actual) => (stored', .error ⟨actual, new⟩)

/-- `Atomic::load(ord, guard)` — returns the stored tagged word as a `Shared`. -/
def Atomic.load (stored : Nat) (_ord : MemOrd) : Nat := stored

/-- `Atomic::fetch_and(val, ord, guard)` — issues
`data.fetch_and(val | !low_bits::<H>(), ord)`; returns (new stored word,
previous word). -/
def Atomic.fetch_and (align stored val : Nat) : Nat × Nat :=
  (stored &&& (val ||| wnot (low_bits align)), stored)

/-- `Atomic::fetch_or(val, ord, guard)` — issues
`data.fetch_or(val & low_bits::<H>(), ord)`; returns (new stored word,
previous word). -/
def Atomic.fetch_or (align stored val : Nat) : Nat × Nat :=
  (stored ||| (val &&& low_bits align), stored)

/-- `Atomic::fetch_xor(val, ord, guard)` — issues
`data.fetch_xor(val & low_bits::<H>(), ord)`; returns (new stored word,
previous word). -/
def Atomic.fetch_xor (align stored val : Nat) : Nat × Nat :=
  (stored ^^^ (val &&& low_bits align), stored)

/-! ## Deferred closure slot (`deferred.rs`)

A `Deferred` stores a one-shot callable either inline in three machine words
or boxed on the heap, together with a trampoline that reconstitutes the
callable from the raw storage and invokes it.  The callable is embedded as a
state transformer `σ → σ`, so that "invoked exactly once" is observable as a
single application: an instrumented callable (e.g. a counter increment)
records each invocation in the state. -/

/-- `const DATA_WORDS: usize = 3`. -/
def DATA_WORDS : Nat := 3

/-- Bytes per machine word on the 64-bit targets. -/
def wordBytes : Nat := 8

/-- `mem::size_of::<Data>()` where `type Data = [usize; DATA_WORDS]`. -/
def dataSize : Nat := DATA_WORDS * wordBytes

/-- `mem::align_of::<Data>()`. -/
def dataAlign : Nat := wordBytes

/-- The storage chosen by `Deferred::new`: the callable written inline into the
data words, or a box written inline whose heap cell holds the callable.  Either
way the stored bits determine exactly the supplied callable. -/
inductive DeferredSlot (σ : Type) where
  | inline (f : σ → σ)
  | boxed (f : σ → σ)

/-- `Deferred`: the chosen storage plus the matching trampoline; the trampoline
variant is fixed by the constructor branch, so it is determined by the slot. -/
structure Deferred (σ : Type) where
  slot : DeferredSlot σ

/-- `Deferred::new(f)`: if `size_of::<F>() <= size_of::<Data>()` and
`align_of::<F>() <= align_of::<Data>()`, write `f` inline; otherwise box it.
`size` and `align` stand for `mem::size_of::<F>()` and `mem::align_of::<F>()`. -/
def Deferred.new {σ : Type} (size align : Nat) (f : σ → σ) : Deferred σ :=
  if size ≤ dataSize ∧ align ≤ dataAlign then
    ⟨DeferredSlot.inline f⟩
  else
    ⟨DeferredSlot.boxed f⟩

/-- Whether the callable was stored inline. -/
def Deferred.isInline {σ : Type} (d : Deferred σ) : Bool :=
  match d.slot with
  | .inline _ => true
  | .boxed _ => false

/-- `Deferred::call(self)`: run the stored trampoline on the data words.  Each
trampoline reads the callable back out of the storage (`ptr::read`, one level
of unboxing in the heap case) and invokes it once: `let f: F = ptr::read(raw); f()`. -/
def Deferred.call {σ : Type} (d : Deferred σ) (s : σ) : σ :=
  match d.slot with
  | .inline f => f s
  | .boxed f => f s

/-! ## Rendezvous channel — shared pieces

`actor.rs` is not under `src/`, so the per-thread context is modelled from the
spec.  Entries, registries and the channel operations below are translated
from `src/flavors/zero.rs` and `crossbeam-channel/src/flavors/zero.rs`. -/

/-- Modelled from the spec: the per-thread context state machine of `actor.rs`
(not under `src/`): "State machine of a waiting context: `Waiting →
{Selected(op), Aborted, Closed}`.  Transitions are single-writer via
compare-and-set on the context state." -/
inductive ActorState where
  | waiting
  | selected (caseId : Nat)
  | aborted
  | closedSt
deriving DecidableEq

/-- Actor states indexed by actor id. -/
def ActorMap : Type := Nat → ActorState

/-- Whether a context is still in the initial `Waiting` state, i.e. whether a
select-arbitration CAS on it would succeed. -/
def ActorState.isWaiting : ActorState → Bool
  | .waiting => true
  | _ => false

/-- Modelled from the spec: `Actor::select(case_id)` of `actor.rs` (not under
`src/`): the select-arbitration compare-and-set `Waiting → Selected(case_id)`;
returns whether it succeeded, leaving the state unchanged on failure. -/
def actorSelect (st : ActorMap) (a caseId : Nat) : ActorMap × Bool :=
  match st a with
  | .waiting => (fun b => if b = a then ActorState.selected caseId else st b, true)
  | _ => (st, false)

/-! ### Legacy registry (`src/flavors/zero.rs`, lines 217–301) -/

/-- `Entry<T> { actor, case_id, packet }` — the actor is referenced by id; its
owning thread is given by the ambient `tid : Nat → Nat` map
(`actor.thread_id()` is fixed per actor). -/
structure Entry where
  actorId : Nat
  caseId : Nat
  packet : Option Nat
deriving DecidableEq

/-- `Registry::pop`: scan the entries in FIFO order; skip entries owned by the
current thread; attempt the select-arbitration CAS on each remaining entry and
remove and return the first one for which it succeeds. -/
def Registry.pop (tid : Nat → Nat) (cur : Nat) :
    List Entry → ActorMap → Option Entry × List Entry × ActorMap
  | [], st => (none, [], st)
  | e :: rest, st =>
    if tid e.actorId ≠ cur then
      match actorSelect st e.actorId e.caseId with
      | (st', true) => (some e, rest, st')
      | (_, false) =>
        let (r, rest', st') := Registry.pop tid cur rest st
        (r, e :: rest', st')
    else
      let (r, rest', st') := Registry.pop tid cur rest st
      (r, e :: rest', st')

/-- `Registry::offer(packet, case_id)`: push an entry for the current actor
carrying a packet pointer. -/
def Registry.offer (entries : List Entry) (curActor : Nat) (packet : Nat)
    (caseId : Nat) : List Entry :=
  entries ++ [⟨curActor, caseId, some packet⟩]

/-- `Registry::promise(case_id)`: push an entry for the current actor with no
packet. -/
def Registry.promise (entries : List Entry) (curActor : Nat) (caseId : Nat) :
    List Entry :=
  entries ++ [⟨curActor, caseId, none⟩]

/-- `Registry::revoke(case_id)`: remove the first entry owned by the current
thread with the given case id (`maybe_shrink` only affects capacity). -/
def Registry.revoke (tid : Nat → Nat) (cur : Nat) (caseId : Nat) :
    List Entry → List Entry
  | [] => []
  | e :: rest =>
    if tid e.actorId = cur ∧ e.caseId = caseId then rest
    else e :: Registry.revoke tid cur caseId rest

/-- `Registry::can_notify`: whether some entry is owned by a thread other than
the current one. -/
def Registry.can_notify (tid : Nat → Nat) (cur : Nat) : List Entry → Bool
  | [] => false
  | e :: rest =>
    if tid e.actorId ≠ cur then true else Registry.can_notify tid cur rest

/-- `Registry::abort_all`: select-fail every entry with the `CaseId::none()`
sentinel (case id `0`) and drain the registry (`unpark` wakes the thread and
has no effect on this state). -/
def Registry.abort_all (st : ActorMap) : List Entry → ActorMap
  | [] => st
  | e :: rest => Registry.abort_all (actorSelect st e.actorId 0).1 rest

/-! ### Legacy channel (`src/flavors/zero.rs`, lines 12–215) -/

/-- `Inner<T> { senders, receivers, closed }` (entries carry packet addresses,
not messages, so `Inner` needs no type parameter here). -/
structure Inner where
  senders : List Entry
  receivers : List Entry
  closed : Bool
deriving DecidableEq

/-- `TrySendError` of the legacy flavor: `Full(T)` or `Disconnected(T)`. -/
inductive TrySendResOld (T : Type) where
  | ok
  | full (v : T)
  | disconnected (v : T)
deriving DecidableEq

/-- The side effect performed by a successful legacy `try_send`: a direct
handoff (`e.actor.send(value)`, entry registered via `promise`) or a write
into the entry's packet (`(*packet).put(value)` followed by `unpark`). -/
inductive SendEffect (T : Type) where
  | direct (actorId : Nat) (v : T)
  | viaPacket (packet : Nat) (v : T)
  | noEffect
deriving DecidableEq

/-- `Channel::try_send(value)` of the legacy flavor: first checks `closed`
(returning `Disconnected(value)`), then pops an eligible waiting receiver and
delivers through it, else returns `Full(value)`. -/
def Channel.try_send_old {T : Type} (tid : Nat → Nat) (cur : Nat) (inner : Inner)
    (st : ActorMap) (v : T) : TrySendResOld T × SendEffect T × Inner × ActorMap :=
  if inner.closed then
    (.disconnected v, .noEffect, inner, st)
  else
    match Registry.pop tid cur inner.receivers st with
    | (some e, rest, st') =>
      match e.packet with
      | none => (.ok, .direct e.actorId v, { inner with receivers := rest }, st')
      | some p => (.ok, .viaPacket p v, { inner with receivers := rest }, st')
    | (none, rest, st') => (.full v, .noEffect, { inner with receivers := rest }, st')

/-- `TryRecvError` of the legacy flavor. -/
inductive TryRecvResOld (T : Type) where
  | ok (v : T)
  | empty
  | disconnected
deriving DecidableEq

/-- The receive side's counterpart of `SendEffect`: where the message was
taken from (`e.actor.recv()` or `(*packet).take()`); the message value itself
lives outside this state model. -/
inductive RecvEffect where
  | direct (actorId : Nat)
  | viaPacket (packet : Nat)
  | noEffect
deriving DecidableEq

/-- `Channel::try_recv()` of the legacy flavor: first checks `closed`, then
pops an eligible waiting sender, else returns `Empty`. -/
def Channel.try_recv_old (tid : Nat → Nat) (cur : Nat) (inner : Inner)
    (st : ActorMap) : TryRecvResOld Unit × RecvEffect × Inner × ActorMap :=
  if inner.closed then
    (.disconnected, .noEffect, inner, st)
  else
    match Registry.pop tid cur inner.senders st with
    | (some e, rest, st') =>
      match e.packet with
      | none => (.ok (), .direct e.actorId, { inner with senders := rest }, st')
      | some p => (.ok (), .viaPacket p, { inner with senders := rest }, st')
    | (none, rest, st') => (.empty, .noEffect, { inner with senders := rest }, st')

/-- `Channel::close()`: if not already closed, set `closed`, select-fail and
wake every waiter on both registries, and return `true`; otherwise return
`false`. -/
def Channel.close (inner : Inner) (st : ActorMap) : Bool × Inner × ActorMap :=
  if inner.closed then
    (false, inner, st)
  else
    let st1 := Registry.abort_all st inner.senders
    let st2 := Registry.abort_all st1 inner.receivers
    (true, { senders := [], receivers := [], closed := true }, st2)

/-! ### Operation traces over the legacy channel (for monotonicity of `close`) -/

/-- One channel operation, tagged with the id of the acting actor (whose
thread is `tid actorId`). -/
inductive ChanOp (T : Type) where
  | tsend (v : T)
  | trecv
  | cclose
  | psend (caseId : Nat)
  | precv (caseId : Nat)
  | rsend (caseId : Nat)
  | rrecv (caseId : Nat)
  | osend (packet caseId : Nat)
  | orecv (packet caseId : Nat)

/-- The result an operation reports back to its caller. -/
inductive OpRes (T : Type) where
  | closeRes (b : Bool)
  | sendRes (r : TrySendResOld T)
  | recvRes (r : TryRecvResOld Unit)
  | unitRes
deriving DecidableEq

/-- Whether an operation is a `close()` call. -/
def ChanOp.isClose {T : Type} : ChanOp T → Bool
  | .cclose => true
  | _ => false

/-- Interpret one operation, performed by actor `a`, over the channel state. -/
def Channel.step {T : Type} (tid : Nat → Nat) (s : Inner × ActorMap) (a : Nat) :
    ChanOp T → (Inner × ActorMap) × OpRes T
  | .tsend v =>
    let (r, _, inner', st') := Channel.try_send_old tid (tid a) s.1 s.2 v
    ((inner', st'), .sendRes r)
  | .trecv =>
    let (r, _, inner', st') := Channel.try_recv_old tid (tid a) s.1 s.2
    ((inner', st'), .recvRes r)
  | .cclose =>
    let (b, inner', st') := Channel.close s.1 s.2
    ((inner', st'), .closeRes b)
  | .psend c => (({ s.1 with senders := Registry.promise s.1.senders a c }, s.2), .unitRes)
  | .precv c => (({ s.1 with receivers := Registry.promise s.1.receivers a c }, s.2), .unitRes)
  | .rsend c => (({ s.1 with senders := Registry.revoke tid (tid a) c s.1.senders }, s.2), .unitRes)
  | .rrecv c => (({ s.1 with receivers := Registry.revoke tid (tid a) c s.1.receivers }, s.2), .unitRes)
  | .osend p c => (({ s.1 with senders := Registry.offer s.1.senders a p c }, s.2), .unitRes)
  | .orecv p c => (({ s.1 with receivers := Registry.offer s.1.receivers a p c }, s.2), .unitRes)

/-- Run a list of (actor, operation) pairs, returning the final state. -/
def Channel.run {T : Type} (tid : Nat → Nat) (s : Inner × ActorMap) :
    List (Nat × ChanOp T) → Inner × ActorMap
  | [] => s
  | (a, op) :: rest => Channel.run tid (Channel.step tid s a op).1 rest

/-- Run a list of (actor, operation) pairs, collecting each operation's result. -/
def Channel.runResults {T : Type} (tid : Nat → Nat) (s : Inner × ActorMap) :
    List (Nat × ChanOp T) → List (OpRes T)
  | [] => []
  | (a, op) :: rest =>
    let (s', r) := Channel.step tid s a op
    r :: Channel.runResults tid s' rest

/-- Whether a result is a `close()` call that returned `true`. -/
def OpRes.isTrueClose {T : Type} : OpRes T → Bool
  | .closeRes true => true
  | _ => false

/-- Number of `close()` calls in a result trace that returned `true`. -/
def trueCloses {T : Type} : List (OpRes T) → Nat
  | [] => 0
  | .closeRes true :: rest => trueCloses rest + 1
  | _ :: rest => trueCloses rest

/-! ### Packets and tokens (`crossbeam-channel/src/flavors/zero.rs`, lines 18–183) -/

/-- `Packet<T> { on_stack, ready, msg }`. -/
structure Packet (T : Type) where
  onStack : Bool
  ready : Bool
  msg : Option T

/-- Packet storage addressed by the `ZeroToken` word. -/
def Heap (T : Type) : Type := Nat → Packet T

/-- `Channel::write(token, msg)`: a `0` token means the channel was closed, so
the message is returned unwritten and no packet is touched; otherwise the
message is written into the token's packet and `ready` is set. -/
def Channel.write {T : Type} (hp : Heap T) (tokenZero : Nat) (m : T) :
    Except T Unit × Heap T :=
  if tokenZero = 0 then
    (.error m, hp)
  else
    (.ok (), fun q =>
      if q = tokenZero then { hp tokenZero with msg := some m, ready := true }
      else hp q)

/-- `Channel::read(token)`: a `0` token means the channel was closed, so the
closed error is returned and no packet is touched.  Otherwise a stack packet
is drained and its `ready` flag set; a heap packet is drained once `ready`
(`none` stands for the paths that block in `wait_ready` or panic on a missing
message). -/
def Channel.read {T : Type} (hp : Heap T) (tokenZero : Nat) :
    Option (Except Unit T) × Heap T :=
  if tokenZero = 0 then
    (some (.error ()), hp)
  else
    let pk := hp tokenZero
    if pk.onStack then
      match pk.msg with
      | some m =>
        (some (.ok m), fun q =>
          if q = tokenZero then { pk with msg := none, ready := true } else hp q)
      | none => (none, hp)
    else if pk.ready then
      match pk.msg with
      | some m => (some (.ok m), hp)
      | none => (none, hp)
    else (none, hp)

/-! ### Current-flavor channel (`crossbeam-channel/src/flavors/zero.rs`, lines 185–203)

`waker.rs` is not under `src/`; the `Waker`'s entries and `try_select` are
modelled from the spec and mirror the legacy registry's `pop`. -/

/-- An entry of the `Waker`: operation id, packet address, owning context. -/
structure WEntry where
  ctxId : Nat
  oper : Nat
  packet : Nat
deriving DecidableEq

/-- Modelled from the spec: `Waker::try_select` of `waker.rs` (not under
`src/`): "pop the first entry whose context is not the current thread and
whose select-arbitration (CAS on the context's state) succeeds". -/
def Waker.try_select (tid : Nat → Nat) (cur : Nat) :
    List WEntry → ActorMap → Option WEntry × List WEntry × ActorMap
  | [], st => (none, [], st)
  | e :: rest, st =>
    if tid e.ctxId ≠ cur then
      match actorSelect st e.ctxId e.oper with
      | (st', true) => (some e, rest, st')
      | (_, false) =>
        let (r, rest', st') := Waker.try_select tid cur rest st
        (r, e :: rest', st')
    else
      let (r, rest', st') := Waker.try_select tid cur rest st
      (r, e :: rest', st')

/-- `Inner { senders, receivers, is_closed }` of the current flavor. -/
structure InnerCC where
  senders : List WEntry
  receivers : List WEntry
  isClosed : Bool
deriving DecidableEq

/-- `TrySendError` of the current flavor; `panic` marks the unreachable
`unwrap` on a failed `write` (a registered packet address is never `0`). -/
inductive TrySendRes (T : Type) where
  | ok
  | full (v : T)
  | closed (v : T)
  | panic
deriving DecidableEq

/-- `Channel::try_send(msg)` of the current flavor: first try to pair with a
waiting receiver (writing through its packet even if the channel is closed);
only if no receiver is eligible consult `is_closed`; else report `Full`. -/
def Channel.try_send {T : Type} (tid : Nat → Nat) (cur : Nat) (inner : InnerCC)
    (st : ActorMap) (hp : Heap T) (msg : T) :
    TrySendRes T × InnerCC × ActorMap × Heap T :=
  match Waker.try_select tid cur inner.receivers st with
  | (some op, rest, st') =>
    match Channel.write hp op.packet msg with
    | (.ok _, hp') => (.ok, { inner with receivers := rest }, st', hp')
    | (.error _, hp') => (.panic, { inner with receivers := rest }, st', hp')
  | (none, _, _) =>
    if inner.isClosed then (.closed msg, inner, st, hp)
    else (.full msg, inner, st, hp)

/-! ## Helper lemmas -/

theorem trailingZeros_two_pow (k : Nat) : trailingZeros (2 ^ k) = k := by
  induction k with
  | zero => simp [trailingZeros]
  | succ k ih =>
    rw [trailingZeros]
    have hne : 2 ^ (k + 1) ≠ 0 := (Nat.pow_pos (by decide)).ne'
    have hmod : 2 ^ (k + 1) % 2 = 0 := by
      rw [Nat.pow_succ]
      exact Nat.mul_mod_left _ _
    have hdiv : 2 ^ (k + 1) / 2 = 2 ^ k := by
      rw [Nat.pow_succ, Nat.mul_div_cancel _ (by decide)]
    simp [hne, hmod, hdiv, ih]

theorem low_bits_two_pow (k : Nat) : low_bits (2 ^ k) = 2 ^ k - 1 := by
  rw [low_bits, trailingZeros_two_pow, Nat.one_shiftLeft]

theorem testBit_low_bits (k i : Nat) :
    (low_bits (2 ^ k)).testBit i = decide (i < k) := by
  rw [low_bits_two_pow]; simp

theorem testBit_wnot_low_bits (k i : Nat) (hk : k ≤ 64) :
    (wnot (low_bits (2 ^ k))).testBit i = (decide (k ≤ i) && decide (i < 64)) := by
  rw [wnot, wordMask, wordBits]
  simp only [Nat.testBit_xor, Nat.testBit_two_pow_sub_one, testBit_low_bits]
  by_cases h1 : i < k
  · have : i < 64 := lt_of_lt_of_le h1 hk
    simp [h1, this, Nat.not_le.mpr h1]
  · by_cases h2 : i < 64 <;> simp [h1, h2, Nat.le_of_not_lt h1]

theorem and_low_bits_of_lt {k t : Nat} (ht : t < 2 ^ k) :
    t &&& low_bits (2 ^ k) = t := by
  apply Nat.eq_of_testBit_eq
  intro i
  simp only [Nat.testBit_and, testBit_low_bits]
  by_cases h : i < k
  · simp [h]
  · have : t < 2 ^ i :=
      lt_of_lt_of_le ht (Nat.pow_le_pow_right (by decide) (Nat.le_of_not_lt h))
    simp [h, Nat.testBit_lt_two_pow this]

theorem tag_with_tag (k data t : Nat) (hk : k ≤ 64) :
    Shared.tag (2 ^ k) (Shared.with_tag (2 ^ k) data t) = t &&& low_bits (2 ^ k) := by
  apply Nat.eq_of_testBit_eq
  intro i
  simp only [Shared.tag, decompose_tag, Shared.with_tag, compose_tag,
    Nat.testBit_and, Nat.testBit_or, testBit_low_bits, testBit_wnot_low_bits k i hk]
  by_cases h : i < k
  · simp [h, Nat.not_le.mpr h]
  · simp [h]

theorem as_raw_with_tag (k data t : Nat) (hk : k ≤ 64) :
    Shared.as_raw (2 ^ k) (Shared.with_tag (2 ^ k) data t)
      = Shared.as_raw (2 ^ k) data := by
  apply Nat.eq_of_testBit_eq
  intro i
  simp only [Shared.as_raw, decompose_raw, Shared.with_tag, compose_tag,
    Nat.testBit_and, Nat.testBit_or, testBit_low_bits, testBit_wnot_low_bits k i hk]
  by_cases h : i < k
  · simp [h, Nat.not_le.mpr h]
  · by_cases h2 : i < 64 <;>
      cases hd : data.testBit i <;> cases htt : t.testBit i <;>
      simp [h, h2, Nat.le_of_not_lt h]

theorem pop_eq_find (tid : Nat → Nat) (cur : Nat) (entries : List Entry)
    (st : ActorMap) :
    (Registry.pop tid cur entries st).1
      = entries.find? (fun e => !(tid e.actorId == cur) && (st e.actorId).isWaiting) := by
  induction entries with
  | nil => rfl
  | cons e rest ih =>
    by_cases h : tid e.actorId = cur
    · have hbe : (tid e.actorId == cur) = true := beq_iff_eq.mpr h
      simp [Registry.pop, h, List.find?, hbe, ih]
    · have hbe : (tid e.actorId == cur) = false := beq_eq_false_iff_ne.mpr h
      cases hst : st e.actorId <;>
        simp [Registry.pop, h, actorSelect, hst, List.find?, hbe,
          ActorState.isWaiting, ih]

theorem can_notify_iff (tid : Nat → Nat) (cur : Nat) (entries : List Entry) :
    Registry.can_notify tid cur entries = true ↔ ∃ e ∈ entries, tid e.actorId ≠ cur := by
  induction entries with
  | nil => simp [Registry.can_notify]
  | cons e rest ih =>
    by_cases h : tid e.actorId = cur <;> simp [Registry.can_notify, h, ih]

theorem try_send_old_preserves_closed {T : Type} (tid : Nat → Nat) (cur : Nat)
    (inner : Inner) (st : ActorMap) (v : T) :
    ((Channel.try_send_old tid cur inner st v).2.2.1).closed = inner.closed := by
  by_cases hc : inner.closed
  · simp [Channel.try_send_old, hc]
  · rcases hp : Registry.pop tid cur inner.receivers st with ⟨ro, rest, st2⟩
    cases ro with
    | none => simp [Channel.try_send_old, hc, hp]
    | some e => cases hpk : e.packet <;> simp [Channel.try_send_old, hc, hp, hpk]

theorem try_recv_old_preserves_closed (tid : Nat → Nat) (cur : Nat)
    (inner : Inner) (st : ActorMap) :
    ((Channel.try_recv_old tid cur inner st).2.2.1).closed = inner.closed := by
  by_cases hc : inner.closed
  · simp [Channel.try_recv_old, hc]
  · rcases hp : Registry.pop tid cur inner.senders st with ⟨ro, rest, st2⟩
    cases ro with
    | none => simp [Channel.try_recv_old, hc, hp]
    | some e => cases hpk : e.packet <;> simp [Channel.try_recv_old, hc, hp, hpk]

theorem step_closed {T : Type} (tid : Nat → Nat) (s : Inner × ActorMap) (a : Nat)
    (op : ChanOp T) :
    ((Channel.step tid s a op).1).1.closed = (s.1.closed || op.isClose) := by
  cases op with
  | tsend v =>
    rcases h : Channel.try_send_old tid (tid a) s.1 s.2 v with ⟨r, eff, inner', st'⟩
    have hcl := try_send_old_preserves_closed tid (tid a) s.1 s.2 v
    rw [h] at hcl
    simp [Channel.step, h, ChanOp.isClose]
    exact hcl
  | trecv =>
    rcases h : Channel.try_recv_old tid (tid a) s.1 s.2 with ⟨r, eff, inner', st'⟩
    have hcl := try_recv_old_preserves_closed tid (tid a) s.1 s.2
    rw [h] at hcl
    simp [Channel.step, h, ChanOp.isClose]
    exact hcl
  | cclose =>
    by_cases hc : s.1.closed <;> simp [Channel.step, Channel.close, hc, ChanOp.isClose]
  | psend c => simp [Channel.step, ChanOp.isClose]
  | precv c => simp [Channel.step, ChanOp.isClose]
  | rsend c => simp [Channel.step, ChanOp.isClose]
  | rrecv c => simp [Channel.step, ChanOp.isClose]
  | osend p c => simp [Channel.step, ChanOp.isClose]
  | orecv p c => simp [Channel.step, ChanOp.isClose]

theorem step_close_res {T : Type} (tid : Nat → Nat) (s : Inner × ActorMap) (a : Nat) :
    (Channel.step (T := T) tid s a ChanOp.cclose).2 = OpRes.closeRes (!s.1.closed) := by
  by_cases hc : s.1.closed <;> simp [Channel.step, Channel.close, hc]

theorem step_res_shape {T : Type} (tid : Nat → Nat) (s : Inner × ActorMap) (a : Nat)
    (op : ChanOp T) (hop : op.isClose = false) :
    ((Channel.step tid s a op).2).isTrueClose = false := by
  cases op with
  | tsend v =>
    rcases h : Channel.try_send_old tid (tid a) s.1 s.2 v with ⟨r, eff, inner', st'⟩
    simp [Channel.step, h, OpRes.isTrueClose]
  | trecv =>
    rcases h : Channel.try_recv_old tid (tid a) s.1 s.2 with ⟨r, eff, inner', st'⟩
    simp [Channel.step, h, OpRes.isTrueClose]
  | cclose => simp [ChanOp.isClose] at hop
  | psend c => simp [Channel.step, OpRes.isTrueClose]
  | precv c => simp [Channel.step, OpRes.isTrueClose]
  | rsend c => simp [Channel.step, OpRes.isTrueClose]
  | rrecv c => simp [Channel.step, OpRes.isTrueClose]
  | osend p c => simp [Channel.step, OpRes.isTrueClose]
  | orecv p c => simp [Channel.step, OpRes.isTrueClose]

theorem trueCloses_cons {T : Type} (r : OpRes T) (l : List (OpRes T)) :
    trueCloses (r :: l) = trueCloses l + (if r.isTrueClose then 1 else 0) := by
  cases r with
  | closeRes b => cases b <;> simp [trueCloses, OpRes.isTrueClose]
  | sendRes r => simp [trueCloses, OpRes.isTrueClose]
  | recvRes r => simp [trueCloses, OpRes.isTrueClose]
  | unitRes => simp [trueCloses, OpRes.isTrueClose]

theorem trueCloses_run {T : Type} (tid : Nat → Nat) (s : Inner × ActorMap)
    (ops : List (Nat × ChanOp T)) :
    trueCloses (Channel.runResults tid s ops)
      = if s.1.closed then 0
        else if ops.any (fun oc => oc.2.isClose) then 1 else 0 := by
  induction ops generalizing s with
  | nil => cases hc : s.1.closed <;> simp [Channel.runResults, trueCloses, hc]
  | cons hd rest ih =>
    rcases hd with ⟨a, op⟩
    rcases hstep : Channel.step tid s a op with ⟨s', r⟩
    have hres : Channel.runResults tid s ((a, op) :: rest)
        = r :: Channel.runResults tid s' rest := by
      simp [Channel.runResults, hstep]
    have hclosed' : s'.1.closed = (s.1.closed || op.isClose) := by
      have := step_closed tid s a op
      rw [hstep] at this
      exact this
    rw [hres, trueCloses_cons, ih s']
    cases hc : s.1.closed with
    | true =>
      have h0 : s'.1.closed = true := by rw [hclosed', hc]; simp
      rw [h0]
      cases hop : op.isClose with
      | true =>
        cases op <;> simp [ChanOp.isClose] at hop
        have hr : r = OpRes.closeRes false := by
          have := step_close_res (T := T) tid s a
          rw [hstep, hc] at this
          exact this
        simp [hc, hr, OpRes.isTrueClose]
      | false =>
        have hne := step_res_shape tid s a op hop
        rw [hstep] at hne
        simp only at hne
        simp [hc, hne]
    | false =>
      cases hop : op.isClose with
      | true =>
        cases op <;> simp [ChanOp.isClose] at hop
        have hr : r = OpRes.closeRes true := by
          have := step_close_res (T := T) tid s a
          rw [hstep, hc] at this
          exact this
        have h1 : s'.1.closed = true := by
          rw [hclosed', hc]; simp [ChanOp.isClose]
        simp [hc, hr, h1, OpRes.isTrueClose, ChanOp.isClose]
      | false =>
        have hne := step_res_shape tid s a op hop
        rw [hstep] at hne
        simp only at hne
        have h0 : s'.1.closed = false := by rw [hclosed', hc, hop]; rfl
        rw [List.any_cons, hop, Bool.false_or]
        simp [hc, h0, hne]

theorem run_closed {T : Type} (tid : Nat → Nat) (s : Inner × ActorMap)
    (ops : List (Nat × ChanOp T)) :
    ((Channel.run tid s ops).1).closed
      = (s.1.closed || ops.any (fun oc => oc.2.isClose)) := by
  induction ops generalizing s with
  | nil => simp [Channel.run]
  | cons hd rest ih =>
    rcases hd with ⟨a, op⟩
    have : Channel.run tid s ((a, op) :: rest)
        = Channel.run tid (Channel.step tid s a op).1 rest := rfl
    rw [this, ih, step_closed]
    simp [Bool.or_assoc]

/-! ## Claim theorems -/

/-- C2: `compare_and_set` with `current` equal to the stored tagged word replaces
the stored word with `new`'s full tagged word and returns `Ok` of that word (a
subsequent `load` sees it); with `current` unequal it leaves the stored word
unchanged and returns `Err` whose `current` field is the actual stored word and
whose `new` field is the unmodified argument `new`. -/
theorem compare_and_set_spec (stored current new : Nat) :
    (stored = current →
      Atomic.compare_and_set stored current new = (new, Except.ok new)
        ∧ Atomic.load (Atomic.compare_and_set stored current new).1 MemOrd.seqCst = new)
  ∧ (stored ≠ current →
      Atomic.compare_and_set stored current new
        = (stored, Except.error ⟨stored, new⟩)) := by
  constructor
  · intro h
    simp [Atomic.compare_and_set, AtomicUsize.compare_exchange, Atomic.load, h]
  · intro h
    simp [Atomic.compare_and_set, AtomicUsize.compare_exchange, h]

/-- Witness for `compare_and_set_spec` at `stored = 5` with `current = 5` and
`current = 6`. -/
theorem compare_and_set_spec_witness :
    (Atomic.compare_and_set 5 5 7 = (7, Except.ok 7)
      ∧ Atomic.load (Atomic.compare_and_set 5 5 7).1 MemOrd.seqCst = 7)
  ∧ Atomic.compare_and_set 5 6 9 = (5, Except.error ⟨5, 9⟩) :=
  ⟨(compare_and_set_spec 5 5 7).1 rfl, (compare_and_set_spec 5 6 9).2 (by decide)⟩

/-- C3: for any tagged word and any `t < ALIGN` (with `ALIGN = 2 ^ k` a power
of two, as Rust alignments are), `with_tag t` round-trips the tag and leaves
the raw pointer unchanged; for arbitrary `t` the stored tag is `t` truncated
to the low bits `(1 << trailing_zeros(ALIGN)) - 1`. -/
theorem tag_roundtrip (k data t : Nat) (hk : k ≤ 64) :
    (t < 2 ^ k →
      Shared.tag (2 ^ k) (Shared.with_tag (2 ^ k) data t) = t
        ∧ Shared.as_raw (2 ^ k) (Shared.with_tag (2 ^ k) data t)
            = Shared.as_raw (2 ^ k) data)
  ∧ Shared.tag (2 ^ k) (Shared.with_tag (2 ^ k) data t)
      = t &&& low_bits (2 ^ k) := by
  refine ⟨fun ht => ⟨?_, as_raw_with_tag k data t hk⟩, tag_with_tag k data t hk⟩
  rw [tag_with_tag k data t hk, and_low_bits_of_lt ht]

/-- Witness for `tag_roundtrip` with `ALIGN = 8`, `data = 40`, `t = 5`. -/
theorem tag_roundtrip_witness :
    Shared.tag (2 ^ 3) (Shared.with_tag (2 ^ 3) 40 5) = 5
      ∧ Shared.as_raw (2 ^ 3) (Shared.with_tag (2 ^ 3) 40 5)
          = Shared.as_raw (2 ^ 3) 40 :=
  (tag_roundtrip 3 40 5 (by decide)).1 (by decide)

/-- C4: `fetch_and`, `fetch_or` and `fetch_xor` leave the raw portion of the
stored word unchanged, set the stored tag to respectively `tag & val`,
`tag | val` and `tag ^ val` truncated to the low bits, and each returns
the previous tagged word; `fetch_and` issues the atomic with
`val | !low_bits` and `fetch_or`/`fetch_xor` with `val & low_bits`. -/
theorem fetch_ops_tag_only (k stored val : Nat) (hk : k ≤ 64) :
    ((Atomic.fetch_and (2 ^ k) stored val).2 = stored
      ∧ (Atomic.fetch_and (2 ^ k) stored val).1
          = stored &&& (val ||| wnot (low_bits (2 ^ k)))
      ∧ decompose_raw (2 ^ k) (Atomic.fetch_and (2 ^ k) stored val).1
          = decompose_raw (2 ^ k) stored
      ∧ decompose_tag (2 ^ k) (Atomic.fetch_and (2 ^ k) stored val).1
          = (decompose_tag (2 ^ k) stored &&& val) &&& low_bits (2 ^ k))
  ∧ ((Atomic.fetch_or (2 ^ k) stored val).2 = stored
      ∧ (Atomic.fetch_or (2 ^ k) stored val).1
          = stored ||| (val &&& low_bits (2 ^ k))
      ∧ decompose_raw (2 ^ k) (Atomic.fetch_or (2 ^ k) stored val).1
          = decompose_raw (2 ^ k) stored
      ∧ decompose_tag (2 ^ k) (Atomic.fetch_or (2 ^ k) stored val).1
          = (decompose_tag (2 ^ k) stored ||| val) &&& low_bits (2 ^ k))
  ∧ ((Atomic.fetch_xor (2 ^ k) stored val).2 = stored
      ∧ (Atomic.fetch_xor (2 ^ k) stored val).1
          = stored ^^^ (val &&& low_bits (2 ^ k))
      ∧ decompose_raw (2 ^ k) (Atomic.fetch_xor (2 ^ k) stored val).1
          = decompose_raw (2 ^ k) stored
      ∧ decompose_tag (2 ^ k) (Atomic.fetch_xor (2 ^ k) stored val).1
          = (decompose_tag (2 ^ k) stored ^^^ val) &&& low_bits (2 ^ k)) := by
  refine ⟨⟨rfl, rfl, ?_, ?_⟩, ⟨rfl, rfl, ?_, ?_⟩, ⟨rfl, rfl, ?_, ?_⟩⟩ <;>
    (apply Nat.eq_of_testBit_eq
     intro i
     simp only [Atomic.fetch_and, Atomic.fetch_or, Atomic.fetch_xor,
       decompose_raw, decompose_tag, Nat.testBit_and, Nat.testBit_or,
       Nat.testBit_xor, testBit_low_bits, testBit_wnot_low_bits k i hk]
     by_cases h : i < k
     · have h64 : i < 64 := lt_of_lt_of_le h hk
       cases stored.testBit i <;> cases val.testBit i <;>
         simp [h, h64, Nat.not_le.mpr h]
     · by_cases h2 : i < 64 <;> cases stored.testBit i <;> cases val.testBit i <;>
         simp [h, h2, Nat.le_of_not_lt h])

/-- Witness for `fetch_ops_tag_only` with `ALIGN = 4`, stored word `13`,
argument `3`. -/
theorem fetch_ops_tag_only_witness :
    (Atomic.fetch_and (2 ^ 2) 13 3).2 = 13
  ∧ decompose_tag (2 ^ 2) (Atomic.fetch_and (2 ^ 2) 13 3).1
      = (decompose_tag (2 ^ 2) 13 &&& 3) &&& low_bits (2 ^ 2)
  ∧ decompose_raw (2 ^ 2) (Atomic.fetch_or (2 ^ 2) 13 3).1
      = decompose_raw (2 ^ 2) 13 :=
  ⟨(fetch_ops_tag_only 2 13 3 (by decide)).1.1,
   (fetch_ops_tag_only 2 13 3 (by decide)).1.2.2.2,
   (fetch_ops_tag_only 2 13 3 (by decide)).2.1.2.2.1⟩

/-- C7: the failure ordering derived from a single success ordering is
`Relaxed` for `Relaxed`/`Release`, `Acquire` for `Acquire`/`AcqRel`, `SeqCst`
for `SeqCst`; it is never `Release` or `AcqRel` and never stronger than the
success ordering. -/
theorem strongest_failure_ordering_spec :
    MemOrd.failure MemOrd.relaxed = MemOrd.relaxed
  ∧ MemOrd.failure MemOrd.release = MemOrd.relaxed
  ∧ MemOrd.failure MemOrd.acquire = MemOrd.acquire
  ∧ MemOrd.failure MemOrd.acqRel = MemOrd.acquire
  ∧ MemOrd.failure MemOrd.seqCst = MemOrd.seqCst
  ∧ ∀ o : MemOrd, MemOrd.failure o ≠ MemOrd.release
      ∧ MemOrd.failure o ≠ MemOrd.acqRel
      ∧ MemOrd.weakerOrEqual (MemOrd.failure o) (MemOrd.success o) = true := by
  refine ⟨rfl, rfl, rfl, rfl, rfl, fun o => ?_⟩
  cases o <;> exact ⟨by decide, by decide, rfl⟩

/-- C9: for every callable (embedded as a state transformer), `call` on
`Deferred::new f` runs exactly the supplied `f`, once — its effect on the
state is a single application of `f` — both in the inline-small case and in
the boxed case; and the storage is inline exactly when the callable's size and
alignment fit within the three data words. -/
theorem deferred_call_once (σ : Type) (size align : Nat) (f : σ → σ) (s : σ) :
    Deferred.call (Deferred.new size align f) s = f s
  ∧ Deferred.isInline (Deferred.new size align f)
      = decide (size ≤ dataSize ∧ align ≤ dataAlign) := by
  by_cases h : size ≤ dataSize ∧ align ≤ dataAlign <;>
    simp [Deferred.new, Deferred.call, Deferred.isInline, h]

/-- C10: nullness ignores the tag: `Shared::null().with_tag(t)` is null for
every `t`, retagging never changes `is_null`, and `is_null` holds exactly
when the raw portion (low tag bits masked off) is zero. -/
theorem is_null_ignores_tag (k t data : Nat) (hk : k ≤ 64) :
    Shared.is_null (2 ^ k) (Shared.with_tag (2 ^ k) Shared.nullData t) = true
  ∧ Shared.is_null (2 ^ k) (Shared.with_tag (2 ^ k) data t)
      = Shared.is_null (2 ^ k) data
  ∧ (Shared.is_null (2 ^ k) data = true ↔ decompose_raw (2 ^ k) data = 0) := by
  have key : ∀ d, decompose_raw (2 ^ k) (Shared.with_tag (2 ^ k) d t)
      = decompose_raw (2 ^ k) d := fun d => as_raw_with_tag k d t hk
  refine ⟨?_, ?_, ?_⟩
  · have h0 : decompose_raw (2 ^ k) Shared.nullData = 0 := by
      simp [decompose_raw, Shared.nullData]
    simp only [Shared.is_null, key Shared.nullData, h0, beq_self_eq_true]
  · simp only [Shared.is_null, key data]
  · simp [Shared.is_null]

/-- Witness for `is_null_ignores_tag` with `ALIGN = 8`, `t = 5`, `data = 40`. -/
theorem is_null_ignores_tag_witness :
    Shared.is_null (2 ^ 3) (Shared.with_tag (2 ^ 3) Shared.nullData 5) = true :=
  (is_null_ignores_tag 3 5 40 (by decide)).1

/-- C6: the registry's pairing never selects an entry owned by the calling
thread; it returns exactly the first entry in FIFO order whose owner differs
from the caller and whose select-arbitration succeeds (or none); and
`can_notify` holds exactly when some entry owned by a different thread
exists. -/
theorem registry_no_self_select (tid : Nat → Nat) (cur : Nat) (st : ActorMap)
    (entries : List Entry) :
    (∀ e, (Registry.pop tid cur entries st).1 = some e → tid e.actorId ≠ cur)
  ∧ (Registry.pop tid cur entries st).1
      = entries.find? (fun e => !(tid e.actorId == cur) && (st e.actorId).isWaiting)
  ∧ (Registry.can_notify tid cur entries = true
      ↔ ∃ e ∈ entries, tid e.actorId ≠ cur) := by
  refine ⟨?_, pop_eq_find tid cur entries st, can_notify_iff tid cur entries⟩
  intro e he
  rw [pop_eq_find] at he
  have hp := List.find?_some he
  simp only [Bool.and_eq_true, Bool.not_eq_true', beq_eq_false_iff_ne, ne_eq] at hp
  exact hp.1

/-- Witness for `registry_no_self_select`: with two entries, the first owned
by the calling thread, `pop` selects the second. -/
theorem registry_no_self_select_witness :
    (fun a : Nat => a) 2 ≠ 1
  ∧ Registry.can_notify (fun a : Nat => a) 1 [⟨1, 0, none⟩, ⟨2, 3, some 4⟩] = true :=
  ⟨(registry_no_self_select (fun a => a) 1 (fun _ => ActorState.waiting)
      [⟨1, 0, none⟩, ⟨2, 3, some 4⟩]).1 ⟨2, 3, some 4⟩ rfl,
   ((registry_no_self_select (fun a => a) 1 (fun _ => ActorState.waiting)
      [⟨1, 0, none⟩, ⟨2, 3, some 4⟩]).2.2).mpr ⟨⟨2, 3, some 4⟩, by simp, by decide⟩⟩

/-- C5: the closed flag never transitions from true back to false under any
operation; `close()` returns `true` exactly for the call that performs the
false-to-true transition, and along any trace of operations the number of
`close()` calls that return `true` is one when the channel starts open and a
close occurs, zero otherwise. -/
theorem close_monotonic (T : Type) (tid : Nat → Nat) (s : Inner × ActorMap)
    (ops : List (Nat × ChanOp T)) (a : Nat) (op : ChanOp T) :
    ((Channel.step tid s a op).1).1.closed = (s.1.closed || op.isClose)
  ∧ (Channel.step (T := T) tid s a ChanOp.cclose).2 = OpRes.closeRes (!s.1.closed)
  ∧ ((Channel.step (T := T) tid s a ChanOp.cclose).1).1.closed = true
  ∧ ((Channel.run tid s ops).1).closed
      = (s.1.closed || ops.any (fun oc => oc.2.isClose))
  ∧ trueCloses (Channel.runResults tid s ops)
      = (if s.1.closed then 0
         else if ops.any (fun oc => oc.2.isClose) then 1 else 0) := by
  refine ⟨step_closed tid s a op, step_close_res tid s a, ?_,
    run_closed tid s ops, trueCloses_run tid s ops⟩
  have h := step_closed (T := T) tid s a ChanOp.cclose
  rw [h]
  simp [ChanOp.isClose]

/-- C8: `write` with a token whose `zero` field is 0 returns `Err(msg)`
carrying the message unwritten, and `read` with a zero token returns the
closed error; in both cases the packet storage is untouched. -/
theorem token_zero_closed (T : Type) (hp : Heap T) (m : T) :
    Channel.write hp 0 m = (Except.error m, hp)
  ∧ Channel.read hp 0 = (some (Except.error ()), hp) := by
  constructor <;> rfl

/-- C1 (amended): in the current flavor (`crossbeam-channel`), `try_send`
first attempts to pair with a waiting receiver and only then consults the
closed flag — Ok when an eligible receiver exists even if closed, else Closed
when closed, else Full; the legacy flavor (`src/flavors/zero.rs`) instead
checks `closed` first and returns `Disconnected(msg)` whenever the channel is
closed, even if an eligible receiver is waiting, and otherwise pairs (Ok) or
returns Full. -/
theorem try_send_pairs_before_closed (T : Type) (tid : Nat → Nat) (cur : Nat)
    (inner : InnerCC) (innerOld : Inner) (st : ActorMap) (hp : Heap T) (msg : T) :
    (∀ op rest st2,
       Waker.try_select tid cur inner.receivers st = (some op, rest, st2) →
       op.packet ≠ 0 →
       (Channel.try_send tid cur inner st hp msg).1 = TrySendRes.ok)
  ∧ ((Waker.try_select tid cur inner.receivers st).1 = none →
       inner.isClosed = true →
       (Channel.try_send tid cur inner st hp msg).1 = TrySendRes.closed msg)
  ∧ ((Waker.try_select tid cur inner.receivers st).1 = none →
       inner.isClosed = false →
       (Channel.try_send tid cur inner st hp msg).1 = TrySendRes.full msg)
  ∧ (innerOld.closed = true →
       (Channel.try_send_old tid cur innerOld st msg).1
         = TrySendResOld.disconnected msg)
  ∧ (innerOld.closed = false →
       ∀ e rest st2,
       Registry.pop tid cur innerOld.receivers st = (some e, rest, st2) →
       (Channel.try_send_old tid cur innerOld st msg).1 = TrySendResOld.ok)
  ∧ (innerOld.closed = false →
       (Registry.pop tid cur innerOld.receivers st).1 = none →
       (Channel.try_send_old tid cur innerOld st msg).1
         = TrySendResOld.full msg) := by
  refine ⟨?_, ?_, ?_, ?_, ?_, ?_⟩
  · intro op rest st2 hsel hpk
    simp [Channel.try_send, hsel, Channel.write, hpk]
  · intro hnone hcl
    rcases h : Waker.try_select tid cur inner.receivers st with ⟨r, rest, st2⟩
    rw [h] at hnone
    simp only at hnone
    subst hnone
    simp [Channel.try_send, h, hcl]
  · intro hnone hcl
    rcases h : Waker.try_select tid cur inner.receivers st with ⟨r, rest, st2⟩
    rw [h] at hnone
    simp only at hnone
    subst hnone
    simp [Channel.try_send, h, hcl]
  · intro hcl
    simp [Channel.try_send_old, hcl]
  · intro hcl e rest st2 hpop
    cases hpk : e.packet <;> simp [Channel.try_send_old, hcl, hpop, hpk]
  · intro hcl hnone
    rcases h : Registry.pop tid cur innerOld.receivers st with ⟨r, rest, st2⟩
    rw [h] at hnone
    simp only at hnone
    subst hnone
    simp [Channel.try_send_old, hcl, h]

/-- Witness for `try_send_pairs_before_closed`: the current flavor returns Ok
on a closed channel with a waiting receiver; the legacy flavor returns
Disconnected on a closed channel. -/
theorem try_send_pairs_before_closed_witness :
    (Channel.try_send (fun _ => 0) 1 ⟨[], [⟨0, 5, 9⟩], true⟩
        (fun _ => ActorState.waiting) (fun _ => ⟨true, false, none⟩) (42 : Nat)).1
      = TrySendRes.ok
  ∧ (Channel.try_send_old (fun _ => 0) 1 ⟨[], [], true⟩
        (fun _ => ActorState.waiting) (42 : Nat)).1
      = TrySendResOld.disconnected 42 :=
  ⟨(try_send_pairs_before_closed Nat (fun _ => 0) 1 ⟨[], [⟨0, 5, 9⟩], true⟩
      ⟨[], [], true⟩ (fun _ => ActorState.waiting)
      (fun _ => ⟨true, false, none⟩) 42).1 ⟨0, 5, 9⟩ [] _ rfl (by decide),
   (try_send_pairs_before_closed Nat (fun _ => 0) 1 ⟨[], [⟨0, 5, 9⟩], true⟩
      ⟨[], [], true⟩ (fun _ => ActorState.waiting)
      (fun _ => ⟨true, false, none⟩) 42).2.2.2.1 rfl⟩

/-- C1 counterexample: in the legacy flavor, a closed channel whose receiver
registry holds an eligible waiting receiver (whose select-arbitration would
succeed, as `pop` shows) still gets `Disconnected`, not Ok, from `try_send` —
the closed flag is consulted before pairing. -/
theorem try_send_checks_closed_first_counterexample :
    (Registry.pop (fun _ => 0) 1 [⟨0, 1, some 7⟩] (fun _ => ActorState.waiting)).1
        = some ⟨0, 1, some 7⟩
  ∧ (⟨[], [⟨0, 1, some 7⟩], true⟩ : Inner).closed = true
  ∧ (Channel.try_send_old (fun _ => 0) 1 ⟨[], [⟨0, 1, some 7⟩], true⟩
        (fun _ => ActorState.waiting) (42 : Nat)).1
      = TrySendResOld.disconnected 42
  ∧ (Channel.try_send_old (fun _ => 0) 1 ⟨[], [⟨0, 1, some 7⟩], true⟩
        (fun _ => ActorState.waiting) (42 : Nat)).1 ≠ TrySendResOld.ok :=
  ⟨rfl, rfl, rfl, by decide⟩

end Crossbeam


